import Mathlib

/-!
# HeatExposure — verification of the spec against the code

Shallow embedding of the HeatExposure repository (a route-planning web
front-end plus a deterministic mock heat-raster backend).  The front-end
code (`web/src/App.tsx`, `web/src/components/MapView.tsx`) is embedded
directly from the source.  The backend service (tile-index loader, route
matcher, seeded raster generator, HTTP handlers) is not part of the
checked-in sources; those definitions are modelled from the spec and are
marked as such in their doc comments.

Numbers are modelled as rationals (`ℚ`).  JavaScript `Number` values that
are NaN or infinite are modelled as `none : Option ℚ`; finite values are
kept exact (binary64 rounding is not modelled — it never changes the
finite/non-finite classification below the overflow threshold, which is
modelled explicitly).
-/

namespace HeatExposure

/-! ## A model of JavaScript string-to-number coercion

`Number(s)` for a string `s` (ECMA-262 `StringToNumber`): surrounding
whitespace is stripped, the empty remainder denotes `0`, otherwise the
remainder must be a `StrNumericLiteral`; anything else is NaN.  NaN and
the infinities are collapsed into `none`, since the only consumer in the
source (`parseLngLat`) immediately filters with `Number.isFinite`. -/

/-- Value of one decimal digit character. -/
def decDigitVal (c : Char) : ℕ := c.toNat - 48

/-- Numeric value of a list of decimal digit characters (most significant first). -/
def digitsVal (ds : List Char) : ℕ :=
  ds.foldl (fun a c => 10 * a + decDigitVal c) 0

/-- All characters are decimal digits and there is at least one. -/
def allDigits (cs : List Char) : Bool :=
  !cs.isEmpty && cs.all Char.isDigit

/-- Parse a run of decimal digits that must span the whole input. -/
def digitsOnly (cs : List Char) : Option ℕ :=
  if allDigits cs then some (digitsVal cs) else none

/-- Parse the optionally signed digit string of an exponent part. -/
def parseSignedExp : List Char → Option ℤ
  | '+' :: ds => (digitsOnly ds).map Int.ofNat
  | '-' :: ds => (digitsOnly ds).map (fun n => -(n : ℤ))
  | ds => (digitsOnly ds).map Int.ofNat

/-- Parse an (optional) exponent part `e`/`E` followed by a signed integer;
an empty remainder means exponent `0`. -/
def parseExpPart : List Char → Option ℤ
  | [] => some 0
  | 'e' :: rest => parseSignedExp rest
  | 'E' :: rest => parseSignedExp rest
  | _ => none

/-- The rational `mantissa * 10 ^ e`, built with `mkRat` so that it
evaluates by kernel reduction (one of the two powers is always `10^0`). -/
def decValue (mantissa : ℕ) (e : ℤ) : ℚ :=
  mkRat (mantissa * 10 ^ e.toNat) (10 ^ (-e).toNat)

/-- Parse an unsigned decimal literal (`StrUnsignedDecimalLiteral` without
`Infinity`): `digits [. digits] [exp]` or `. digits [exp]`. -/
def parseUnsignedDec (cs : List Char) : Option ℚ :=
  let intPart := cs.takeWhile Char.isDigit
  let rest1 := cs.dropWhile Char.isDigit
  match rest1 with
  | '.' :: rest2 =>
      let fracPart := rest2.takeWhile Char.isDigit
      let rest3 := rest2.dropWhile Char.isDigit
      if intPart.isEmpty && fracPart.isEmpty then none
      else
        (parseExpPart rest3).map (fun e =>
          decValue (digitsVal (intPart ++ fracPart)) (e - (fracPart.length : ℤ)))
  | _ =>
      if intPart.isEmpty then none
      else (parseExpPart rest1).map (fun e => decValue (digitsVal intPart) e)

/-- Value of one hexadecimal digit character, if any. -/
def hexDigitVal (c : Char) : Option ℕ :=
  if c.isDigit then some (c.toNat - 48)
  else if 'a' ≤ c ∧ c ≤ 'f' then some (c.toNat - 87)
  else if 'A' ≤ c ∧ c ≤ 'F' then some (c.toNat - 55)
  else none

/-- Parse a non-empty digit string in the given radix (whole input). -/
def parseRadix (digitVal : Char → Option ℕ) (radix : ℕ) (cs : List Char) : Option ℕ :=
  if cs.isEmpty then none
  else cs.foldl (fun acc c => acc.bind fun a => (digitVal c).map (fun d => radix * a + d)) (some 0)

/-- Value of one binary or octal digit character under a bound, if any. -/
def boundedDigitVal (bound : ℕ) (c : Char) : Option ℕ :=
  if c.isDigit && decDigitVal c < bound then some (decDigitVal c) else none

/-- Unsigned decimal literal or `Infinity`; the infinities are non-finite,
hence `none`. -/
def parseUnsignedOrInf (cs : List Char) : Option ℚ :=
  if cs = "Infinity".toList then none else parseUnsignedDec cs

/-- A `StrNumericLiteral`: a signed decimal literal, or an unsigned
non-decimal (`0x`/`0o`/`0b`) integer literal. -/
def parseNumericLiteral (cs : List Char) : Option ℚ :=
  match cs with
  | '+' :: rest => parseUnsignedOrInf rest
  | '-' :: rest => (parseUnsignedOrInf rest).map Neg.neg
  | '0' :: 'x' :: ds => (parseRadix hexDigitVal 16 ds).map (fun n => mkRat n 1)
  | '0' :: 'X' :: ds => (parseRadix hexDigitVal 16 ds).map (fun n => mkRat n 1)
  | '0' :: 'o' :: ds => (parseRadix (boundedDigitVal 8) 8 ds).map (fun n => mkRat n 1)
  | '0' :: 'O' :: ds => (parseRadix (boundedDigitVal 8) 8 ds).map (fun n => mkRat n 1)
  | '0' :: 'b' :: ds => (parseRadix (boundedDigitVal 2) 2 ds).map (fun n => mkRat n 1)
  | '0' :: 'B' :: ds => (parseRadix (boundedDigitVal 2) 2 ds).map (fun n => mkRat n 1)
  | _ => parseUnsignedOrInf cs

/-- Smallest exact magnitude whose binary64 rounding is infinite
(the midpoint between the largest finite double and `2^1024`;
round-half-even sends the midpoint itself to infinity).  Written as a
literal — `float64OverflowBound_eq` checks it equals `2^1024 - 2^970` —
because kernel reduction handles numerals better than iterated `npowRec`. -/
def float64OverflowBound : ℚ := 179769313486231580793728971405303415079934132710037826936173778980444968292764750946649017977587207096330286416692887910946555547851940402630657488671505820681908902000708383676273854845817711531764475730270069855571366959622842914819860834936475292719074168444365510704342711559699508093042880177904174497792

lemma float64OverflowBound_eq :
    float64OverflowBound = ((2 ^ 1024 - 2 ^ 970 : ℕ) : ℚ) := by
  rw [float64OverflowBound]
  norm_num

/-- A finite exact value whose binary64 rounding would be infinite. -/
def overflowsFloat64 (q : ℚ) : Bool :=
  decide (float64OverflowBound ≤ q) || decide (q ≤ -float64OverflowBound)

/-- Strip JavaScript whitespace from both ends of a character list
(models both `String.prototype.trim` and the whitespace stripping inside
`StringToNumber`). -/
def trimChars (cs : List Char) : List Char :=
  ((cs.dropWhile Char.isWhitespace).reverse.dropWhile Char.isWhitespace).reverse

/-- JavaScript `Number(s)` for a string given as a character list: `some q` when the
result is a finite number `q`, `none` when it is NaN or infinite. -/
def jsCharsToNumber (cs : List Char) : Option ℚ :=
  let t := trimChars cs
  if t.isEmpty then some 0
  else
    (parseNumericLiteral t).bind (fun q =>
      if overflowsFloat64 q then none else some q)

/-- JavaScript `rawValue.split(',')` on the character list: split at every
comma; the empty input yields one empty field. -/
def splitOnComma : List Char → List (List Char)
  | [] => [[]]
  | c :: rest =>
      let r := splitOnComma rest
      if c = ',' then [] :: r
      else (c :: r.headD []) :: r.tail

/-- JavaScript `String.prototype.trim` as a string-to-string function. -/
def jsTrim (s : String) : String := ⟨trimChars s.data⟩

/-- Embedded from `web/src/App.tsx` / `web/src/components/MapView.tsx`
(`parseLngLat`): split the raw value on commas, trim each field, coerce
the first two fields with `Number` (a missing field is `undefined`, whose
coercion is NaN), and return the pair unless either coordinate is
non-finite. -/
def parseLngLat (rawValue : String) : Option (ℚ × ℚ) :=
  let fields := (splitOnComma rawValue.data).map trimChars
  match (fields.get? 0).bind jsCharsToNumber, (fields.get? 1).bind jsCharsToNumber with
  | some lng, some lat => some (lng, lat)
  | _, _ => none

/-! ## Map click selection (MapView.tsx) -/

/-- The selection state held by `MapView`: the currently selected start
and end coordinates (`startSelectionRef` / `endSelectionRef`). -/
structure Selection where
  startSel : Option (ℚ × ℚ)
  endSel : Option (ℚ × ℚ)
deriving DecidableEq

/-- Embedded from the `map.on('click', ...)` handler in
`web/src/components/MapView.tsx`: if no start is selected or an end is
already selected, the click becomes the new start and clears the end;
otherwise it becomes the end. -/
def clickStep (s : Selection) (p : ℚ × ℚ) : Selection :=
  if s.startSel.isNone || s.endSel.isSome then ⟨some p, none⟩
  else ⟨s.startSel, some p⟩

/-- An end point is selected only if a start point is selected. -/
def selectionInv (s : Selection) : Bool :=
  !s.endSel.isSome || s.startSel.isSome

lemma selectionInv_clickStep (s : Selection) (p : ℚ × ℚ) :
    selectionInv (clickStep s p) = true := by
  unfold clickStep
  split
  · rfl
  · rename_i h
    simp only [Bool.or_eq_true, not_or, Bool.not_eq_true] at h
    cases hs : s.startSel with
    | none => rw [hs] at h; simp at h
    | some v => simp [selectionInv, hs]

lemma selectionInv_foldl (ps : List (ℚ × ℚ)) (s : Selection)
    (h : selectionInv s = true) : selectionInv (ps.foldl clickStep s) = true := by
  induction ps generalizing s with
  | nil => exact h
  | cons p rest ih => exact ih (clickStep s p) (selectionInv_clickStep s p)

/-! ## JSON values and the tile index

The backend is not among the checked-in sources; the definitions below are
modelled from the spec (§4.1 TileIndexLoader, §4.2 RouteTileMatcher and the
README's list of supported JSON shapes).  JSON documents are modelled as
already-decoded values; a file that is missing, unreadable or not valid
JSON is a `none` at the file-system level. -/

/-- A decoded JSON value.  Object fields keep their textual order; lookups
take the first binding of a key. -/
inductive Json where
  | null : Json
  | bool (b : Bool) : Json
  | num (q : ℚ) : Json
  | str (s : String) : Json
  | arr (elems : List Json) : Json
  | obj (fields : List (String × Json)) : Json

/-- First binding of `key` in an object; `none` on other values. -/
def Json.getField : Json → String → Option Json
  | .obj fields, key => fields.lookup key
  | _, _ => none

/-- The payload of a number value. -/
def Json.getNum : Json → Option ℚ
  | .num q => some q
  | _ => none

/-- The payload of a string value. -/
def Json.getStr : Json → Option String
  | .str s => some s
  | _ => none

/-- A number value that is an integer (row/col indices). -/
def Json.asInt : Json → Option ℤ
  | .num q => if q.den = 1 then some q.num else none
  | _ => none

/-- Modelled from the spec: a tile of the index — `(row, col)` identity
plus bounds `(minLng, minLat, maxLng, maxLat)`. -/
structure Tile where
  row : ℤ
  col : ℤ
  bounds : ℚ × ℚ × ℚ × ℚ
deriving DecidableEq

/-- Spec §3: bounds must satisfy `minLng < maxLng` and `minLat < maxLat`. -/
def wellFormedBounds (t : Tile) : Prop :=
  t.bounds.1 < t.bounds.2.2.1 ∧ t.bounds.2.1 < t.bounds.2.2.2

instance (t : Tile) : Decidable (wellFormedBounds t) := by
  unfold wellFormedBounds; infer_instance

/-- An explicit `bounds` array `[minLng, minLat, maxLng, maxLat]`. -/
def Json.asBounds : Json → Option (ℚ × ℚ × ℚ × ℚ)
  | .arr [.num a, .num b, .num c, .num d] => some (a, b, c, d)
  | _ => none

/-- Four numeric fields of an object, in the given key order. -/
def numQuad (j : Json) (k1 k2 k3 k4 : String) : Option (ℚ × ℚ × ℚ × ℚ) :=
  match (j.getField k1).bind Json.getNum, (j.getField k2).bind Json.getNum,
        (j.getField k3).bind Json.getNum, (j.getField k4).bind Json.getNum with
  | some a, some b, some c, some d => some (a, b, c, d)
  | _, _, _, _ => none

/-- Modelled from the spec: the tile identity is read from `row`/`col`,
or from the `tile_row`/`tile_col` variant. -/
def tileRowCol (j : Json) : Option (ℤ × ℤ) :=
  match (j.getField "row").bind Json.asInt, (j.getField "col").bind Json.asInt with
  | some r, some c => some (r, c)
  | _, _ =>
      match (j.getField "tile_row").bind Json.asInt, (j.getField "tile_col").bind Json.asInt with
      | some r, some c => some (r, c)
      | _, _ => none

/-- Modelled from the spec: bounds come from an explicit `bounds` array,
or from `min_lng`/`min_lat`/`max_lng`/`max_lat`, or from
`left`/`bottom`/`right`/`top`. -/
def tileBounds (j : Json) : Option (ℚ × ℚ × ℚ × ℚ) :=
  match (j.getField "bounds").bind Json.asBounds with
  | some b => some b
  | none =>
      match numQuad j "min_lng" "min_lat" "max_lng" "max_lat" with
      | some b => some b
      | none => numQuad j "left" "bottom" "right" "top"

/-- Modelled from the spec: one tile entry of shapes (a)–(c); malformed
entries yield `none` and are skipped by the caller. -/
def parseTileEntry (j : Json) : Option Tile :=
  match tileRowCol j, tileBounds j with
  | some (r, c), some b => some ⟨r, c, b⟩
  | _, _ => none

/-- A GeoJSON position `[lng, lat, ...]` (a third coordinate is ignored). -/
def jsonPoint : Json → Option (ℚ × ℚ)
  | .arr (.num x :: .num y :: _) => some (x, y)
  | _ => none

/-- Decode every position of a list of position values. -/
def traversePoints : List Json → Option (List (ℚ × ℚ))
  | [] => some []
  | j :: js =>
      match jsonPoint j, traversePoints js with
      | some p, some ps => some (p :: ps)
      | _, _ => none

/-- A GeoJSON linear ring: an array of positions. -/
def jsonPointList : Json → Option (List (ℚ × ℚ))
  | .arr pts => traversePoints pts
  | _ => none

/-- Decode and concatenate the positions of a list of rings. -/
def traverseRings : List Json → Option (List (ℚ × ℚ))
  | [] => some []
  | j :: js =>
      match jsonPointList j, traverseRings js with
      | some ps, some rest => some (ps ++ rest)
      | _, _ => none

/-- All positions of all rings of a Polygon `coordinates` member. -/
def jsonRings : Json → Option (List (ℚ × ℚ))
  | .arr rings => traverseRings rings
  | _ => none

/-- Axis-aligned bounding box of a non-empty list of positions. -/
def aabb : List (ℚ × ℚ) → Option (ℚ × ℚ × ℚ × ℚ)
  | [] => none
  | p :: ps =>
      some (ps.foldl
        (fun (acc : ℚ × ℚ × ℚ × ℚ) q =>
          (min acc.1 q.1, min acc.2.1 q.2, max acc.2.2.1 q.1, max acc.2.2.2 q.2))
        (p.1, p.2, p.1, p.2))

/-- Modelled from the spec: shape (d) — a GeoJSON Feature whose properties
carry `row`/`col` and whose Polygon geometry gives the bounds as its
axis-aligned bounding box. -/
def parseFeature (j : Json) : Option Tile := do
  let props ← j.getField "properties"
  let r ← (props.getField "row").bind Json.asInt
  let c ← (props.getField "col").bind Json.asInt
  let geom ← j.getField "geometry"
  let gty ← (geom.getField "type").bind Json.getStr
  if gty = "Polygon" then
    let coords ← geom.getField "coordinates"
    let pts ← jsonRings coords
    let b ← aabb pts
    pure ⟨r, c, b⟩
  else none

/-- Modelled from the spec: `TileIndexLoader` shape dispatch — a bare list
(shape a), a GeoJSON FeatureCollection (shape d), or an object with a
`tiles` list (shapes b/c); malformed entries are skipped, anything else
yields the empty index. -/
def parseTileIndex : Json → List Tile
  | .arr entries => entries.filterMap parseTileEntry
  | .obj fields =>
      match (Json.obj fields).getField "type" |>.bind Json.getStr with
      | some "FeatureCollection" =>
          match (Json.obj fields).getField "features" with
          | some (.arr feats) => feats.filterMap parseFeature
          | _ => []
      | _ =>
          match (Json.obj fields).getField "tiles" with
          | some (.arr entries) => entries.filterMap parseTileEntry
          | _ => []
  | _ => []

/-- The file system seen by the loader: per path, `some` decoded JSON
document or `none` (missing, unreadable or malformed file). -/
def FileSystem := String → Option Json

/-- Modelled from the spec: `load(path)` fails soft — a missing or
unreadable file gives the empty index. -/
def loadTileIndex (fs : FileSystem) (path : String) : List Tile :=
  match fs path with
  | none => []
  | some j => parseTileIndex j

/-- Reply of `GET /api/tiles/index/meta`. -/
structure IndexMeta where
  tile_index_path : String
  file_exists : Bool
  tile_count : ℕ
deriving DecidableEq

/-- Modelled from the spec: the index-meta diagnostics query. -/
def indexMeta (fs : FileSystem) (path : String) : IndexMeta :=
  { tile_index_path := path
    file_exists := (fs path).isSome
    tile_count := (loadTileIndex fs path).length }

/-! ## Canonical encodings of the four supported JSON shapes -/

/-- Shape (a): a bare tile object with an explicit `bounds` array. -/
def encodeBare (t : Tile) : Json :=
  .obj [("row", .num (t.row : ℚ)), ("col", .num (t.col : ℚ)),
        ("bounds", .arr [.num t.bounds.1, .num t.bounds.2.1,
                         .num t.bounds.2.2.1, .num t.bounds.2.2.2])]

/-- Shape (b): a `tiles` entry with `tile_row`/`tile_col` and
`min_lng`/`min_lat`/`max_lng`/`max_lat`. -/
def encodeMinMax (t : Tile) : Json :=
  .obj [("tile_row", .num (t.row : ℚ)), ("tile_col", .num (t.col : ℚ)),
        ("min_lng", .num t.bounds.1), ("min_lat", .num t.bounds.2.1),
        ("max_lng", .num t.bounds.2.2.1), ("max_lat", .num t.bounds.2.2.2)]

/-- Shape (c): a `tiles` entry with `row`/`col` and
`left`/`bottom`/`right`/`top`. -/
def encodeLbrt (t : Tile) : Json :=
  .obj [("row", .num (t.row : ℚ)), ("col", .num (t.col : ℚ)),
        ("left", .num t.bounds.1), ("bottom", .num t.bounds.2.1),
        ("right", .num t.bounds.2.2.1), ("top", .num t.bounds.2.2.2)]

/-- Shape (d): a GeoJSON Feature whose Polygon ring traces the tile's
bounds rectangle. -/
def encodeFeature (t : Tile) : Json :=
  .obj [("type", .str "Feature"),
        ("properties", .obj [("row", .num (t.row : ℚ)), ("col", .num (t.col : ℚ))]),
        ("geometry", .obj
          [("type", .str "Polygon"),
           ("coordinates", .arr [.arr
             [.arr [.num t.bounds.1, .num t.bounds.2.1],
              .arr [.num t.bounds.2.2.1, .num t.bounds.2.1],
              .arr [.num t.bounds.2.2.1, .num t.bounds.2.2.2],
              .arr [.num t.bounds.1, .num t.bounds.2.2.2],
              .arr [.num t.bounds.1, .num t.bounds.2.1]]])])]

/-- A whole index in shape (a). -/
def encodeShapeA (ts : List Tile) : Json := .arr (ts.map encodeBare)

/-- A whole index in shape (b). -/
def encodeShapeB (ts : List Tile) : Json := .obj [("tiles", .arr (ts.map encodeMinMax))]

/-- A whole index in shape (c). -/
def encodeShapeC (ts : List Tile) : Json := .obj [("tiles", .arr (ts.map encodeLbrt))]

/-- A whole index in shape (d). -/
def encodeShapeD (ts : List Tile) : Json :=
  .obj [("type", .str "FeatureCollection"), ("features", .arr (ts.map encodeFeature))]

/-! ## Route-to-tile matching -/

/-- The `(row, col)` identity of a tile. -/
def Tile.key (t : Tile) : ℤ × ℤ := (t.row, t.col)

/-- A path point lies inside (or on the border of) a tile's bounds. -/
def containsPoint (t : Tile) (p : ℚ × ℚ) : Bool :=
  decide (t.bounds.1 ≤ p.1) && decide (p.1 ≤ t.bounds.2.2.1) &&
  decide (t.bounds.2.1 ≤ p.2) && decide (p.2 ≤ t.bounds.2.2.2)

/-- Tiles of the index hit by one path point, in index order. -/
def tilesAtPoint (idx : List Tile) (p : ℚ × ℚ) : List Tile :=
  idx.filter (fun t => containsPoint t p)

/-- Keep the first occurrence of every key, preserving order. -/
def dedupKeysAux (seen : List (ℤ × ℤ)) : List (ℤ × ℤ) → List (ℤ × ℤ)
  | [] => []
  | k :: ks => if k ∈ seen then dedupKeysAux seen ks else k :: dedupKeysAux (k :: seen) ks

/-- Deduplicate a key list, keeping first occurrences in order. -/
def dedupKeys (l : List (ℤ × ℤ)) : List (ℤ × ℤ) := dedupKeysAux [] l

/-- Modelled from the spec: `RouteTileMatcher.match` over an explicit
sequence of path points — bounding-box tests against each tile,
deduplicated by `(row, col)`, traversal order preserved. -/
def matchRoute (idx : List Tile) (pts : List (ℚ × ℚ)) : List (ℤ × ℤ) :=
  dedupKeys ((pts.flatMap (tilesAtPoint idx)).map Tile.key)

/-- Modelled from the spec: when no router is consulted the path defaults
to the two endpoints. -/
def matchTiles (idx : List Tile) (s e : ℚ × ℚ) : List (ℤ × ℤ) :=
  matchRoute idx [s, e]

/-! ## Seeded raster generation

Modelled from the spec (§4.3 SeededRasterGenerator): a stable hash of the
canonical string of the key fields seeds a deterministic pseudo-random
fill of a fixed-size scalar field in 0–40, rendered once as the raw
raster bytes and once as a colorized image over the fixed 8-bin discrete
UTCI ramp.  An `InvocationCtx` models everything an invocation could
observe besides the request fields (clock, process id, OS entropy); per
the spec's determinism requirement the generator never consults it. -/

/-- The ambient state of one generator invocation. -/
structure InvocationCtx where
  wallClockMs : ℕ
  processId : ℕ
  osEntropy : ℕ

/-- The key fields of a generation request: a single-hour bbox query, or
one tile of a series query (which also carries start/end/profile). -/
inductive GenKey where
  | singleHour (date : String) (hour : ℕ) (bbox : ℚ × ℚ × ℚ × ℚ)
  | seriesTile (date : String) (hour : ℕ) (row col : ℤ) (startPt endPt : ℚ × ℚ)
      (profile : String)
deriving DecidableEq

/-- Canonical, type-stable rendering of a rational (`num/den` of the
reduced form), used in the seed string. -/
def qCanon (q : ℚ) : String := toString q.num ++ "/" ++ toString q.den

/-- Canonical rendering of a point. -/
def pointCanon (p : ℚ × ℚ) : String := qCanon p.1 ++ "," ++ qCanon p.2

/-- Modelled from the spec: the explicit, ordered canonical string over
all key fields from which the seed is derived. -/
def canonicalKey : GenKey → String
  | .singleHour date hour (a, b, c, d) =>
      "single|" ++ date ++ "|" ++ toString hour ++ "|" ++
        qCanon a ++ "," ++ qCanon b ++ "," ++ qCanon c ++ "," ++ qCanon d
  | .seriesTile date hour row col startPt endPt profile =>
      "series|" ++ date ++ "|" ++ toString hour ++ "|" ++
        toString row ++ "," ++ toString col ++ "|" ++
        pointCanon startPt ++ "|" ++ pointCanon endPt ++ "|" ++ profile

/-- A stable 32-bit string hash (FNV-1a over the character codes). -/
def stableHash (s : String) : ℕ :=
  s.data.foldl (fun h c => ((h ^^^ c.toNat) * 16777619) % 4294967296) 2166136261

/-- One step of the 32-bit linear congruential generator. -/
def lcg (x : ℕ) : ℕ := (1664525 * x + 1013904223) % 4294967296

/-- Produce `n` pseudo-random samples in 0–40 from the given seed. -/
def lcgStream : ℕ → ℕ → List ℕ
  | 0, _ => []
  | n + 1, x => let y := lcg x; y % 41 :: lcgStream n y

/-- The raster side length; the field has `rasterSize ^ 2` cells. -/
def rasterSize : ℕ := 16

/-- The deterministic scalar field derived from a seed. -/
def rasterOfSeed (seed : ℕ) : List ℕ := lcgStream (rasterSize * rasterSize) seed

/-- The fixed discrete UTCI bin boundaries. -/
def utciBinBounds : List ℕ := [0, 10, 20, 25, 28, 31, 34, 37, 40]

/-- The 8-bin index of a scalar value under the fixed boundaries. -/
def colorBin (v : ℕ) : ℕ :=
  min 7 ((utciBinBounds.drop 1).countP (fun b => decide (b ≤ v)))

/-- The fixed jet-based 8-colour ramp (RGB). -/
def jetPalette : List (ℕ × ℕ × ℕ) :=
  [(0, 0, 131), (0, 60, 170), (5, 255, 255), (255, 255, 0),
   (255, 170, 0), (255, 85, 0), (255, 0, 0), (128, 0, 0)]

/-- Colorized image bytes: RGB triples of the binned field. -/
def pngOfRaster (field : List ℕ) : List ℕ :=
  field.flatMap (fun v =>
    let c := jetPalette.getD (colorBin v) (0, 0, 0)
    [c.1, c.2.1, c.2.2])

/-- Modelled from the spec: `generate` — raster bytes and PNG bytes from
the seed derived off the canonical key string.  The invocation context is
a parameter so that determinism across invocations is a statement, not a
typing accident; the definition never reads it. -/
def generate (_ctx : InvocationCtx) (key : GenKey) : List ℕ × List ℕ :=
  let seed := stableHash (canonicalKey key)
  let field := rasterOfSeed seed
  (field, pngOfRaster field)

lemma generate_ctx_irrel (ctx₁ ctx₂ : InvocationCtx) (key : GenKey) :
    generate ctx₁ key = generate ctx₂ key := rfl

/-! ## The HeatMockService -/

/-- Turn `YYYY-MM-DD` into `YYYYMMDD`. -/
def stripDashes (s : String) : String := ⟨s.data.filter (fun c => c ≠ '-')⟩

/-- Zero-padded two-digit hour. -/
def pad2 (n : ℕ) : String := if n < 10 then "0" ++ toString n else toString n

/-- Modelled from the spec: the date/hour-partitioned result directory
`server/results/YYYYMMDD/HH/`. -/
def resultDir (date : String) (hour : ℕ) : String :=
  "server/results/" ++ stripDashes date ++ "/" ++ pad2 hour ++ "/"

/-- Modelled from the spec: the per-tile artifact path stem
`server/results/YYYYMMDD/HH/tiles/r{row}_c{col}`. -/
def tilePathStem (date : String) (hour : ℕ) (row col : ℤ) : String :=
  resultDir date hour ++ "tiles/r" ++ toString row ++ "_c" ++ toString col

/-- Reply of the single-hour query `GET /api/heat/mock`. -/
structure HeatMockResponse where
  date : String
  hour : ℕ
  bbox : ℚ × ℚ × ℚ × ℚ
  tif_path : String
  png_path : String
  bounds : (ℚ × ℚ) × (ℚ × ℚ)
deriving DecidableEq

/-- Modelled from the spec: the descriptor of a single-hour query — both
artifact paths live in the result directory and `bounds` repeats the
request bbox as its south-west and north-east corners. -/
def heatMock (date : String) (hour : ℕ) (bbox : ℚ × ℚ × ℚ × ℚ) : HeatMockResponse :=
  let dir := resultDir date hour
  { date := date
    hour := hour
    bbox := bbox
    tif_path := dir ++ "heat_exposure.tif"
    png_path := dir ++ "heat_exposure.png"
    bounds := ((bbox.1, bbox.2.1), (bbox.2.2.1, bbox.2.2.2)) }

/-- The corners of a response's `bounds`, flattened back to a bbox. -/
def boundsToBbox (b : (ℚ × ℚ) × (ℚ × ℚ)) : ℚ × ℚ × ℚ × ℚ :=
  (b.1.1, b.1.2, b.2.1, b.2.2)

/-- The artifact store: file path to file bytes. -/
def Store := String → Option (List ℕ)

/-- Overwriting write of one file. -/
def writeFile (st : Store) (path : String) (bytes : List ℕ) : Store :=
  fun q => if q = path then some bytes else st q

/-- Modelled from the spec: serve a single-hour query — generate the
raster pair, write both artifacts (overwriting), return the descriptor. -/
def runSingleHour (ctx : InvocationCtx) (st : Store) (date : String) (hour : ℕ)
    (bbox : ℚ × ℚ × ℚ × ℚ) : HeatMockResponse × Store :=
  let out := generate ctx (.singleHour date hour bbox)
  let resp := heatMock date hour bbox
  (resp, writeFile (writeFile st resp.tif_path out.1) resp.png_path out.2)

/-- Modelled from the spec: the hour list of a series query is the
half-open range `[startHour, startHour + nHours)`. -/
def seriesHours (startHour nHours : ℕ) : List ℕ :=
  (List.range nHours).map (fun i => startHour + i)

/-- One tile entry of a series reply. -/
structure TileArtifact where
  row : ℤ
  col : ℤ
  png_url : String
  tif_url : String
  bounds : (ℚ × ℚ) × (ℚ × ℚ)
deriving DecidableEq

/-- One hour of a series reply. -/
structure SeriesItem where
  hour : ℕ
  tiles : List TileArtifact
deriving DecidableEq

/-- Reply of `GET /api/heat/mock/series`. -/
structure SeriesResponse where
  date : String
  hours : List ℕ
  bounds : (ℚ × ℚ) × (ℚ × ℚ)
  items : List SeriesItem
  route_tiles : List (ℤ × ℤ)
deriving DecidableEq

/-- The descriptor of one generated tile artifact. -/
def tileArtifact (date : String) (hour : ℕ) (t : Tile) : TileArtifact :=
  { row := t.row
    col := t.col
    png_url := tilePathStem date hour t.row t.col ++ ".png"
    tif_url := tilePathStem date hour t.row t.col ++ ".tif"
    bounds := ((t.bounds.1, t.bounds.2.1), (t.bounds.2.2.1, t.bounds.2.2.2)) }

/-- The index tiles behind the matched `(row, col)` keys, in match order. -/
def matchedTiles (idx : List Tile) (s e : ℚ × ℚ) : List Tile :=
  (matchTiles idx s e).filterMap
    (fun k => idx.find? (fun t => decide (t.key = k)))

/-- The bbox spanned by the two route endpoints. -/
def routeBounds (s e : ℚ × ℚ) : (ℚ × ℚ) × (ℚ × ℚ) :=
  ((min s.1 e.1, min s.2 e.2), (max s.1 e.1, max s.2 e.2))

/-- Modelled from the spec: serve a series query — for each hour of
`[startHour, startHour + nHours)` and each matched tile, one artifact. -/
def mockSeries (date : String) (s e : ℚ × ℚ) (startHour nHours : ℕ)
    (idx : List Tile) : SeriesResponse :=
  { date := date
    hours := seriesHours startHour nHours
    bounds := routeBounds s e
    items := (seriesHours startHour nHours).map
      (fun h => ⟨h, (matchedTiles idx s e).map (tileArtifact date h)⟩)
    route_tiles := matchTiles idx s e }

/-- An ordered list of file writes (path and bytes); later entries win. -/
def WriteList := List (String × List ℕ)

/-- Apply a write list to the store, in order. -/
def applyWrites (st : Store) (ws : WriteList) : Store :=
  ws.foldl (fun acc w => writeFile acc w.1 w.2) st

/-- The bytes of the last write to `q` in a write list, if any. -/
def lookupLast : WriteList → String → Option (List ℕ)
  | [], _ => none
  | (p, b) :: ws, q =>
      match lookupLast ws q with
      | some c => some c
      | none => if q = p then some b else none

/-- The two writes (raster then PNG) of one series tile artifact. -/
def tileWrites (ctx : InvocationCtx) (date : String) (s e : ℚ × ℚ)
    (profile : String) (h : ℕ) (t : Tile) : WriteList :=
  let out := generate ctx (.seriesTile date h t.row t.col s e profile)
  [(tilePathStem date h t.row t.col ++ ".tif", out.1),
   (tilePathStem date h t.row t.col ++ ".png", out.2)]

/-- Modelled from the spec: all writes of a series request — for each hour
of the range and each matched tile, one raster and one PNG artifact. -/
def seriesWrites (ctx : InvocationCtx) (date : String) (s e : ℚ × ℚ)
    (profile : String) (startHour nHours : ℕ) (idx : List Tile) : WriteList :=
  (seriesHours startHour nHours).flatMap (fun h =>
    (matchedTiles idx s e).flatMap (tileWrites ctx date s e profile h))

/-- Write every artifact of a series request to the store, hour by hour
and tile by tile. -/
def writeSeries (ctx : InvocationCtx) (st : Store) (date : String)
    (s e : ℚ × ℚ) (profile : String) (startHour nHours : ℕ)
    (idx : List Tile) : Store :=
  applyWrites st (seriesWrites ctx date s e profile startHour nHours idx)

/-- Modelled from the spec: serve a series query — build the reply and
write every per-(date, hour, tile) artifact. -/
def runSeries (ctx : InvocationCtx) (st : Store) (date : String) (s e : ℚ × ℚ)
    (profile : String) (startHour nHours : ℕ) (idx : List Tile) :
    SeriesResponse × Store :=
  (mockSeries date s e startHour nHours idx,
   writeSeries ctx st date s e profile startHour nHours idx)

/-! ## The front-end series request (App.tsx `loadHeatSeries`) -/

/-- What one press of the heat-series trigger does: either fail request
validation (the error message below is shown, nothing is fetched), or
issue the series request. -/
inductive HeatSeriesAction where
  | validationError (message : String)
  | seriesRequest (date : String) (startPt endPt : ℚ × ℚ) (startHour nHours : ℕ)
      (profile : String)
deriving DecidableEq

/-- Embedded from `loadHeatSeries` in `web/src/App.tsx`: parse the trimmed
start/end inputs with `parseLngLat`; if either is invalid, set the error
message and stop; otherwise request the series for 2026-02-14, hours
13..18, walking profile.  The parsed coordinates are carried as pairs
(the source re-serializes them into `lng,lat` strings). -/
def loadHeatSeries (startCoord endCoord : String) : HeatSeriesAction :=
  match parseLngLat (jsTrim startCoord), parseLngLat (jsTrim endCoord) with
  | some ps, some pe => .seriesRequest "2026-02-14" ps pe 13 6 "walking"
  | _, _ => .validationError "Start/End format invalid. Use lng,lat."

/-- Whether an action issues an HTTP request at all. -/
def issuesRequest : HeatSeriesAction → Bool
  | .validationError _ => false
  | .seriesRequest .. => true

/-- The effect of an action on the server's artifact store: a validation
error never reaches the server, a series request writes its artifacts. -/
def applyAction (ctx : InvocationCtx) (idx : List Tile) (st : Store) :
    HeatSeriesAction → Store
  | .validationError _ => st
  | .seriesRequest date s e startHour nHours profile =>
      writeSeries ctx st date s e profile startHour nHours idx

/-! ## Helper lemmas -/

lemma take2_get0 {α : Type} (l : List α) : (l.take 2).get? 0 = l.get? 0 := by
  cases l <;> rfl

lemma take2_get1 {α : Type} (l : List α) : (l.take 2).get? 1 = l.get? 1 := by
  cases l with
  | nil => rfl
  | cons a t => cases t <;> rfl

lemma mem_dedupKeysAux (x : ℤ × ℤ) :
    ∀ (l seen : List (ℤ × ℤ)), x ∈ dedupKeysAux seen l ↔ x ∈ l ∧ x ∉ seen
  | [], seen => by simp [dedupKeysAux]
  | k :: ks, seen => by
      unfold dedupKeysAux
      by_cases hk : k ∈ seen
      · rw [if_pos hk, mem_dedupKeysAux x ks seen]
        simp only [List.mem_cons]
        constructor
        · rintro ⟨hm, hs⟩
          exact ⟨Or.inr hm, hs⟩
        · rintro ⟨hm | hm, hs⟩
          · exact absurd (hm ▸ hk) hs
          · exact ⟨hm, hs⟩
      · rw [if_neg hk]
        simp only [List.mem_cons, mem_dedupKeysAux x ks (k :: seen)]
        constructor
        · rintro (rfl | ⟨hm, hs⟩)
          · exact ⟨Or.inl rfl, hk⟩
          · exact ⟨Or.inr hm, fun hx => hs (Or.inr hx)⟩
        · rintro ⟨rfl | hm, hs⟩
          · exact Or.inl rfl
          · by_cases hx : x = k
            · exact Or.inl hx
            · refine Or.inr ⟨hm, fun hc => ?_⟩
              rcases hc with hc | hc
              · exact hx hc
              · exact hs hc

lemma dedupKeysAux_nodup : ∀ (l seen : List (ℤ × ℤ)), (dedupKeysAux seen l).Nodup
  | [], _ => List.nodup_nil
  | k :: ks, seen => by
      unfold dedupKeysAux
      by_cases hk : k ∈ seen
      · rw [if_pos hk]
        exact dedupKeysAux_nodup ks seen
      · rw [if_neg hk]
        refine List.nodup_cons.2 ⟨fun hmem => ?_, dedupKeysAux_nodup ks (k :: seen)⟩
        exact ((mem_dedupKeysAux k ks (k :: seen)).1 hmem).2 (List.mem_cons_self k seen)

lemma dedupKeysAux_sublist : ∀ (l seen : List (ℤ × ℤ)), (dedupKeysAux seen l).Sublist l
  | [], _ => List.Sublist.refl []
  | k :: ks, seen => by
      unfold dedupKeysAux
      by_cases hk : k ∈ seen
      · rw [if_pos hk]
        exact (dedupKeysAux_sublist ks seen).trans (List.sublist_cons_self k ks)
      · rw [if_neg hk]
        exact List.Sublist.cons₂ k (dedupKeysAux_sublist ks (k :: seen))

lemma dedupKeysAux_all_seen :
    ∀ (l seen : List (ℤ × ℤ)), (∀ x ∈ l, x ∈ seen) → dedupKeysAux seen l = []
  | [], _, _ => rfl
  | k :: ks, seen, h => by
      unfold dedupKeysAux
      rw [if_pos (h k (List.mem_cons_self k ks))]
      exact dedupKeysAux_all_seen ks seen (fun x hx => h x (List.mem_cons_of_mem k hx))

lemma dedupKeys_const (l : List (ℤ × ℤ)) (a : ℤ × ℤ) (hne : l ≠ [])
    (hall : ∀ x ∈ l, x = a) : dedupKeys l = [a] := by
  cases l with
  | nil => exact absurd rfl hne
  | cons k ks =>
      obtain rfl : k = a := hall k (List.mem_cons_self k ks)
      show dedupKeysAux [] (k :: ks) = [k]
      unfold dedupKeysAux
      rw [if_neg (List.not_mem_nil k)]
      rw [dedupKeysAux_all_seen ks [k] (fun x hx => by
        rw [hall x (List.mem_cons_of_mem k hx)]
        exact List.mem_cons_self k [])]

lemma filterMap_id_of {α : Type} (g : α → Option α) :
    ∀ (ts : List α), (∀ t ∈ ts, g t = some t) → ts.filterMap g = ts
  | [], _ => rfl
  | t :: ts, h => by
      rw [List.filterMap_cons, h t (List.mem_cons_self t ts)]
      rw [filterMap_id_of g ts (fun x hx => h x (List.mem_cons_of_mem t hx))]

lemma asInt_intCast (n : ℤ) : Json.asInt (.num (n : ℚ)) = some n := by
  simp [Json.asInt, Rat.den_intCast, Rat.num_intCast]

lemma parseTileEntry_encodeBare (r c : ℤ) (a b u v : ℚ) :
    parseTileEntry (encodeBare ⟨r, c, (a, b, u, v)⟩) = some ⟨r, c, (a, b, u, v)⟩ := by
  simp [parseTileEntry, tileRowCol, tileBounds, encodeBare, Json.getField,
    Json.asBounds, asInt_intCast, List.lookup]

lemma parseTileEntry_encodeMinMax (r c : ℤ) (a b u v : ℚ) :
    parseTileEntry (encodeMinMax ⟨r, c, (a, b, u, v)⟩) = some ⟨r, c, (a, b, u, v)⟩ := by
  simp [parseTileEntry, tileRowCol, tileBounds, encodeMinMax, Json.getField,
    Json.asBounds, numQuad, Json.getNum, asInt_intCast, List.lookup]

lemma parseTileEntry_encodeLbrt (r c : ℤ) (a b u v : ℚ) :
    parseTileEntry (encodeLbrt ⟨r, c, (a, b, u, v)⟩) = some ⟨r, c, (a, b, u, v)⟩ := by
  simp [parseTileEntry, tileRowCol, tileBounds, encodeLbrt, Json.getField,
    Json.asBounds, numQuad, Json.getNum, asInt_intCast, List.lookup]

lemma parseFeature_encodeFeature (r c : ℤ) (a b u v : ℚ) (h1 : a ≤ u) (h2 : b ≤ v) :
    parseFeature (encodeFeature ⟨r, c, (a, b, u, v)⟩) = some ⟨r, c, (a, b, u, v)⟩ := by
  simp [parseFeature, encodeFeature, Json.getField, Json.getStr, asInt_intCast,
    jsonRings, traverseRings, jsonPointList, traversePoints, jsonPoint, aabb,
    List.lookup, List.foldl, bind, Option.bind,
    min_eq_left h1, min_eq_left h2, max_eq_right h1, max_eq_right h2,
    max_eq_left h1, max_eq_left h2, min_self, max_self]

lemma map_hour_mk (hs : List ℕ) (f : ℕ → List TileArtifact) :
    (hs.map (fun h => SeriesItem.mk h (f h))).map SeriesItem.hour = hs := by
  induction hs with
  | nil => rfl
  | cons a t ih => simp only [List.map_cons, ih]

lemma applyWrites_eq_lookup :
    ∀ (ws : WriteList) (st : Store) (q : String),
      applyWrites st ws q =
        match lookupLast ws q with
        | some c => some c
        | none => st q
  | [], _, _ => rfl
  | (p, b) :: ws, st, q => by
      show applyWrites (writeFile st p b) ws q = _
      rw [applyWrites_eq_lookup ws (writeFile st p b) q]
      have hc : lookupLast ((p, b) :: ws) q =
          match lookupLast ws q with
          | some c => some c
          | none => if q = p then some b else none := rfl
      rw [hc]
      cases lookupLast ws q with
      | some c => rfl
      | none =>
          show writeFile st p b q = _
          by_cases h : q = p <;> simp [writeFile, h]

lemma applyWrites_idem (ws : WriteList) (st : Store) :
    applyWrites (applyWrites st ws) ws = applyWrites st ws := by
  funext q
  simp only [applyWrites_eq_lookup]
  cases lookupLast ws q with
  | some c => rfl
  | none => rfl

lemma seriesWrites_ctx_irrel (ctx₁ ctx₂ : InvocationCtx) (date : String)
    (s e : ℚ × ℚ) (profile : String) (startHour nHours : ℕ) (idx : List Tile) :
    seriesWrites ctx₂ date s e profile startHour nHours idx =
      seriesWrites ctx₁ date s e profile startHour nHours idx := rfl

/-! ## The claims -/

/-- C1: artifact generation is a pure function of the request key fields —
(date, hour, bbox) for a single-hour query, (date, hour, row, col, start,
end, profile) for a series tile.  Two invocations in arbitrary different
ambient contexts produce identical raster and PNG bytes, and any two keys
with the same canonical field string generate identical outputs. -/
theorem generate_deterministic :
    (∀ (ctx₁ ctx₂ : InvocationCtx) (key : GenKey),
        generate ctx₁ key = generate ctx₂ key) ∧
    (∀ (ctx₁ ctx₂ : InvocationCtx) (k₁ k₂ : GenKey),
        canonicalKey k₁ = canonicalKey k₂ → generate ctx₁ k₁ = generate ctx₂ k₂) := by
  refine ⟨fun c1 c2 k => generate_ctx_irrel c1 c2 k, fun c1 c2 k1 k2 h => ?_⟩
  unfold generate
  rw [h]

/-- Witness for C1 at a concrete key and two different contexts. -/
theorem generate_deterministic_witness :
    generate ⟨0, 0, 0⟩ (.singleHour "2026-02-14" 13 (1, 2, 3, 4)) =
      generate ⟨999, 42, 7⟩ (.singleHour "2026-02-14" 13 (1, 2, 3, 4)) :=
  generate_deterministic.2 ⟨0, 0, 0⟩ ⟨999, 42, 7⟩ _ _ rfl

/-- C2: a series query with `start_hour = h` and `n_hours = n` covers
exactly the hours of the half-open interval `[h, h + n)`: membership in
the hours list is equivalent to `h ≤ x < h + n`, the list has length `n`,
the reply's hours and per-item hours enumerate it, and `h = 13, n = 6`
gives exactly `[13, 14, 15, 16, 17, 18]`. -/
theorem seriesHours_halfOpenRange :
    (∀ h n x, x ∈ seriesHours h n ↔ h ≤ x ∧ x < h + n) ∧
    (∀ h n, (seriesHours h n).length = n) ∧
    (∀ date s e h n idx,
        (mockSeries date s e h n idx).hours = seriesHours h n ∧
        (mockSeries date s e h n idx).items.map SeriesItem.hour = seriesHours h n) ∧
    seriesHours 13 6 = [13, 14, 15, 16, 17, 18] := by
  refine ⟨?_, ?_, ?_, rfl⟩
  · intro h n x
    unfold seriesHours
    rw [List.mem_map]
    constructor
    · rintro ⟨i, hi, rfl⟩
      rw [List.mem_range] at hi
      omega
    · rintro ⟨h1, h2⟩
      exact ⟨x - h, List.mem_range.2 (by omega), by omega⟩
  · intro h n
    simp [seriesHours]
  · intro date s e h n idx
    exact ⟨rfl, map_hour_mk (seriesHours h n) _⟩

/-- C3: one tile content expressed in each of the four supported JSON
shapes — bare list with `bounds`, `tiles` list with min/max keys, `tiles`
list with left/bottom/right/top keys, GeoJSON FeatureCollection with
Polygon geometry — parses to the identical normalized tile index. -/
theorem tileIndex_four_shapes_equal (ts : List Tile)
    (h : ∀ t ∈ ts, wellFormedBounds t) :
    parseTileIndex (encodeShapeA ts) = ts ∧
    parseTileIndex (encodeShapeB ts) = ts ∧
    parseTileIndex (encodeShapeC ts) = ts ∧
    parseTileIndex (encodeShapeD ts) = ts := by
  refine ⟨?_, ?_, ?_, ?_⟩
  · show (ts.map encodeBare).filterMap parseTileEntry = ts
    rw [List.filterMap_map]
    refine filterMap_id_of _ ts (fun t ht => ?_)
    obtain ⟨r, c, a, b, u, v⟩ := t
    exact parseTileEntry_encodeBare r c a b u v
  · show (ts.map encodeMinMax).filterMap parseTileEntry = ts
    rw [List.filterMap_map]
    refine filterMap_id_of _ ts (fun t ht => ?_)
    obtain ⟨r, c, a, b, u, v⟩ := t
    exact parseTileEntry_encodeMinMax r c a b u v
  · show (ts.map encodeLbrt).filterMap parseTileEntry = ts
    rw [List.filterMap_map]
    refine filterMap_id_of _ ts (fun t ht => ?_)
    obtain ⟨r, c, a, b, u, v⟩ := t
    exact parseTileEntry_encodeLbrt r c a b u v
  · show (ts.map encodeFeature).filterMap parseFeature = ts
    rw [List.filterMap_map]
    refine filterMap_id_of _ ts (fun t ht => ?_)
    obtain ⟨hw1, hw2⟩ := h t ht
    obtain ⟨r, c, a, b, u, v⟩ := t
    exact parseFeature_encodeFeature r c a b u v (le_of_lt hw1) (le_of_lt hw2)

/-- Witness for C3 at the README's example tile with unit bounds. -/
theorem tileIndex_four_shapes_equal_witness :
    parseTileIndex (encodeShapeA [⟨12, 7, (0, 0, 1, 1)⟩]) = [⟨12, 7, (0, 0, 1, 1)⟩] ∧
    parseTileIndex (encodeShapeB [⟨12, 7, (0, 0, 1, 1)⟩]) = [⟨12, 7, (0, 0, 1, 1)⟩] ∧
    parseTileIndex (encodeShapeC [⟨12, 7, (0, 0, 1, 1)⟩]) = [⟨12, 7, (0, 0, 1, 1)⟩] ∧
    parseTileIndex (encodeShapeD [⟨12, 7, (0, 0, 1, 1)⟩]) = [⟨12, 7, (0, 0, 1, 1)⟩] :=
  tileIndex_four_shapes_equal [⟨12, 7, (0, 0, 1, 1)⟩] (by decide)

/-- C4: route matching — the empty index gives the empty result; an index
none of whose tiles contains either endpoint gives the empty result (never
an error: the function is total); if a tile contains both endpoints and
every tile hit by an endpoint shares its key, the result is exactly that
tile; the result is deduplicated by (row, col) and is an order-preserving
subsequence of the traversal-ordered hits. -/
theorem matchTiles_route_matching (idx : List Tile) (s e : ℚ × ℚ) :
    (matchTiles [] s e = []) ∧
    ((∀ t ∈ idx, containsPoint t s = false ∧ containsPoint t e = false) →
        matchTiles idx s e = []) ∧
    (∀ t ∈ idx, containsPoint t s = true → containsPoint t e = true →
        (∀ t' ∈ idx, (containsPoint t' s = true ∨ containsPoint t' e = true) →
          t'.key = t.key) →
        matchTiles idx s e = [t.key]) ∧
    (matchTiles idx s e).Nodup ∧
    (matchTiles idx s e).Sublist (([s, e].flatMap (tilesAtPoint idx)).map Tile.key) := by
  refine ⟨rfl, ?_, ?_, dedupKeysAux_nodup _ _, dedupKeysAux_sublist _ _⟩
  · intro hall
    have hs : tilesAtPoint idx s = [] :=
      List.filter_eq_nil_iff.2 (fun t ht => by simp [(hall t ht).1])
    have he : tilesAtPoint idx e = [] :=
      List.filter_eq_nil_iff.2 (fun t ht => by simp [(hall t ht).2])
    show dedupKeys (([s, e].flatMap (tilesAtPoint idx)).map Tile.key) = []
    rw [show [s, e].flatMap (tilesAtPoint idx) =
          tilesAtPoint idx s ++ (tilesAtPoint idx e ++ []) from rfl, hs, he]
    rfl
  · intro t ht hcs hce huniq
    show dedupKeys (([s, e].flatMap (tilesAtPoint idx)).map Tile.key) = [t.key]
    refine dedupKeys_const _ t.key ?_ ?_
    · have hmem : t ∈ [s, e].flatMap (tilesAtPoint idx) := by
        refine List.mem_flatMap.2 ⟨s, List.mem_cons_self s [e], ?_⟩
        exact List.mem_filter.2 ⟨ht, hcs⟩
      exact fun hnil => by
        have := List.mem_map_of_mem Tile.key hmem
        rw [hnil] at this
        exact List.not_mem_nil t.key this
    · intro x hx
      obtain ⟨t', ht', rfl⟩ := List.mem_map.1 hx
      obtain ⟨p, hp, htp⟩ := List.mem_flatMap.1 ht'
      obtain ⟨htidx, hcont⟩ := List.mem_filter.1 htp
      rcases List.mem_cons.1 hp with h1 | hp2
      · subst h1
        exact huniq t' htidx (Or.inl hcont)
      · rcases List.mem_cons.1 hp2 with h1 | hp3
        · subst h1
          exact huniq t' htidx (Or.inr hcont)
        · exact absurd hp3 (List.not_mem_nil p)

/-- Witness for C4: a tile containing both endpoints is the unique match;
endpoints outside every tile match nothing. -/
theorem matchTiles_route_matching_witness :
    matchTiles [⟨12, 7, (0, 0, 1, 1)⟩] (mkRat 1 2, mkRat 1 2) (mkRat 1 4, mkRat 3 4) =
      [(12, 7)] ∧
    matchTiles [⟨12, 7, (0, 0, 1, 1)⟩] (2, 2) (3, 3) = [] :=
  ⟨(matchTiles_route_matching [⟨12, 7, (0, 0, 1, 1)⟩] (mkRat 1 2, mkRat 1 2)
      (mkRat 1 4, mkRat 3 4)).2.2.1 ⟨12, 7, (0, 0, 1, 1)⟩
      (by decide) (by decide) (by decide) (by decide),
   (matchTiles_route_matching [⟨12, 7, (0, 0, 1, 1)⟩] (2, 2) (3, 3)).2.1 (by decide)⟩

/-- C5: a missing or unreadable tile-index file yields the empty index
(not a failure — the loader is total), the index-meta query then reports
`file_exists = false` and `tile_count = 0`, and a malformed tile entry is
skipped while the rest of the document keeps loading. -/
theorem loadTileIndex_missing_file (fs : FileSystem) (path : String) :
    (fs path = none →
        loadTileIndex fs path = [] ∧ indexMeta fs path = ⟨path, false, 0⟩) ∧
    (∀ (pre post : List Json) (bad : Json), parseTileEntry bad = none →
        parseTileIndex (.arr (pre ++ bad :: post)) =
          parseTileIndex (.arr (pre ++ post))) := by
  constructor
  · intro h
    have hl : loadTileIndex fs path = [] := by
      unfold loadTileIndex
      rw [h]
    refine ⟨hl, ?_⟩
    unfold indexMeta
    rw [hl, h]
    rfl
  · intro pre post bad hbad
    show (pre ++ bad :: post).filterMap parseTileEntry =
      (pre ++ post).filterMap parseTileEntry
    rw [List.filterMap_append, List.filterMap_append, List.filterMap_cons, hbad]

/-- Witness for C5 at an absent file and a junk entry. -/
theorem loadTileIndex_missing_file_witness :
    loadTileIndex (fun _ => none) "server/data/hk_tiles_index.json" = [] ∧
    indexMeta (fun _ => none) "server/data/hk_tiles_index.json" =
      ⟨"server/data/hk_tiles_index.json", false, 0⟩ ∧
    parseTileIndex (.arr ([] ++ Json.str "oops" :: [encodeBare ⟨12, 7, (0, 0, 1, 1)⟩])) =
      parseTileIndex (.arr ([] ++ [encodeBare ⟨12, 7, (0, 0, 1, 1)⟩])) := by
  have h := loadTileIndex_missing_file (fun _ => none) "server/data/hk_tiles_index.json"
  exact ⟨(h.1 rfl).1, (h.1 rfl).2, h.2 [] [encodeBare ⟨12, 7, (0, 0, 1, 1)⟩] (.str "oops") rfl⟩

/-- C6: a start or end coordinate string with a non-finite longitude or
latitude component fails the heat-series request with the client-side
validation error: the error message is set, no HTTP request is issued,
and the server's artifact store is untouched (and the handler is a total
function — no crash). -/
theorem loadHeatSeries_invalid_input (sc ec : String)
    (h : parseLngLat (jsTrim sc) = none ∨ parseLngLat (jsTrim ec) = none) :
    loadHeatSeries sc ec = .validationError "Start/End format invalid. Use lng,lat." ∧
    issuesRequest (loadHeatSeries sc ec) = false ∧
    (∀ (ctx : InvocationCtx) (idx : List Tile) (st : Store),
        applyAction ctx idx st (loadHeatSeries sc ec) = st) := by
  have heq : loadHeatSeries sc ec =
      .validationError "Start/End format invalid. Use lng,lat." := by
    unfold loadHeatSeries
    rcases h with h | h
    · rw [h]
    · rw [h]
      cases parseLngLat (jsTrim sc) <;> rfl
  refine ⟨heq, ?_, ?_⟩
  · rw [heq]
    rfl
  · intro ctx idx st
    rw [heq]
    rfl

/-- Witness for C6 at an unparseable start input. -/
theorem loadHeatSeries_invalid_input_witness :
    loadHeatSeries "abc" "1,2" =
      .validationError "Start/End format invalid. Use lng,lat." :=
  (loadHeatSeries_invalid_input "abc" "1,2" (Or.inl (by decide))).1

/-- C7: artifact generation is idempotent for every generated artifact.
Re-running a single-hour request on the store left by the first run (even
in a different ambient context) returns the identical descriptor and
leaves the store pointwise unchanged; and re-running a whole series
request — every per-(date, hour, tile) artifact included — returns the
identical series reply and leaves the store pointwise unchanged, because
every overwrite writes identical bytes. -/
theorem heatArtifacts_idempotent (ctx₁ ctx₂ : InvocationCtx) (st : Store)
    (date : String) (hour : ℕ) (bbox : ℚ × ℚ × ℚ × ℚ) (s e : ℚ × ℚ)
    (profile : String) (startHour nHours : ℕ) (idx : List Tile) :
    (runSingleHour ctx₂ (runSingleHour ctx₁ st date hour bbox).2 date hour bbox).1 =
      (runSingleHour ctx₁ st date hour bbox).1 ∧
    (runSingleHour ctx₂ (runSingleHour ctx₁ st date hour bbox).2 date hour bbox).2 =
      (runSingleHour ctx₁ st date hour bbox).2 ∧
    (runSeries ctx₂ (runSeries ctx₁ st date s e profile startHour nHours idx).2
        date s e profile startHour nHours idx).1 =
      (runSeries ctx₁ st date s e profile startHour nHours idx).1 ∧
    (runSeries ctx₂ (runSeries ctx₁ st date s e profile startHour nHours idx).2
        date s e profile startHour nHours idx).2 =
      (runSeries ctx₁ st date s e profile startHour nHours idx).2 := by
  refine ⟨rfl, ?_, rfl, ?_⟩
  · funext q
    simp only [runSingleHour, writeFile]
    by_cases h1 : q = (heatMock date hour bbox).png_path
    · simp only [if_pos h1]
      rfl
    · simp only [if_neg h1]
      by_cases h2 : q = (heatMock date hour bbox).tif_path
      · simp only [if_pos h2]
        rfl
      · simp only [if_neg h2]
  · show applyWrites
        (applyWrites st (seriesWrites ctx₁ date s e profile startHour nHours idx))
        (seriesWrites ctx₂ date s e profile startHour nHours idx) =
      applyWrites st (seriesWrites ctx₁ date s e profile startHour nHours idx)
    rw [seriesWrites_ctx_irrel ctx₁ ctx₂ date s e profile startHour nHours idx]
    exact applyWrites_idem (seriesWrites ctx₁ date s e profile startHour nHours idx) st

/-- C8: the single-hour response's tif and png paths both live under
`server/results/YYYYMMDD/HH/` (date with dashes removed, zero-padded
hour — concretely `server/results/20260214/13/` for 2026-02-14 13:00),
and its bounds repeat the input bbox. -/
theorem heatMock_paths_and_bounds (date : String) (hour : ℕ) (bbox : ℚ × ℚ × ℚ × ℚ) :
    (∃ rest, (heatMock date hour bbox).tif_path = resultDir date hour ++ rest) ∧
    (∃ rest, (heatMock date hour bbox).png_path = resultDir date hour ++ rest) ∧
    boundsToBbox (heatMock date hour bbox).bounds = bbox ∧
    (heatMock date hour bbox).bbox = bbox ∧
    resultDir "2026-02-14" 13 = "server/results/20260214/13/" ∧
    pad2 5 = "05" := by
  exact ⟨⟨"heat_exposure.tif", rfl⟩, ⟨"heat_exposure.png", rfl⟩, rfl, rfl,
    by decide, by decide⟩

/-- C9: `parseLngLat` rejects exactly the inputs whose first two
comma-separated fields coerce to a non-finite number.  In particular,
when the first two fields are empty or whitespace-only (so they trim to
the empty string, which JavaScript coerces to 0) it returns `(0, 0)`
rather than null, and any fields beyond the first two are ignored. -/
theorem parseLngLat_nonfinite_only :
    (∀ s : String,
        ((splitOnComma s.data).map trimChars).get? 0 = some [] →
        ((splitOnComma s.data).map trimChars).get? 1 = some [] →
        parseLngLat s = some (0, 0)) ∧
    (∀ s t : String,
        ((splitOnComma s.data).map trimChars).take 2 =
          ((splitOnComma t.data).map trimChars).take 2 →
        parseLngLat s = parseLngLat t) ∧
    (∀ s : String,
        parseLngLat s = none ↔
          (((splitOnComma s.data).map trimChars).get? 0).bind jsCharsToNumber = none ∨
          (((splitOnComma s.data).map trimChars).get? 1).bind jsCharsToNumber = none) := by
  refine ⟨?_, ?_, ?_⟩
  · intro s h0 h1
    simp only [parseLngLat]
    rw [h0, h1]
    rfl
  · intro s t h
    have e0 : ((splitOnComma s.data).map trimChars).get? 0 =
        ((splitOnComma t.data).map trimChars).get? 0 := by
      rw [← take2_get0 ((splitOnComma s.data).map trimChars),
          ← take2_get0 ((splitOnComma t.data).map trimChars), h]
    have e1 : ((splitOnComma s.data).map trimChars).get? 1 =
        ((splitOnComma t.data).map trimChars).get? 1 := by
      rw [← take2_get1 ((splitOnComma s.data).map trimChars),
          ← take2_get1 ((splitOnComma t.data).map trimChars), h]
    simp only [parseLngLat]
    rw [e0, e1]
  · intro s
    simp only [parseLngLat]
    cases hx : (((splitOnComma s.data).map trimChars).get? 0).bind jsCharsToNumber with
    | none =>
        cases hy : (((splitOnComma s.data).map trimChars).get? 1).bind jsCharsToNumber with
        | none => simp
        | some y => simp
    | some x =>
        cases hy : (((splitOnComma s.data).map trimChars).get? 1).bind jsCharsToNumber with
        | none => simp
        | some y => simp

/-- Witness for C9: the string "," gives (0, 0); a third field is ignored. -/
theorem parseLngLat_nonfinite_only_witness :
    parseLngLat "," = some (0, 0) ∧ parseLngLat "1,2,junk" = parseLngLat "1,2" :=
  ⟨parseLngLat_nonfinite_only.1 "," (by decide) (by decide),
   parseLngLat_nonfinite_only.2.1 "1,2,junk" "1,2" (by decide)⟩

/-- C10: every map click either selects a new start point and clears the
end point (when no start is selected or an end already is), or completes
the end point (when a start is selected and no end is); hence after any
non-empty click sequence an end point exists only if a start point does. -/
theorem clickStep_start_before_end :
    (∀ (s : Selection) (p : ℚ × ℚ), (s.startSel = none ∨ s.endSel ≠ none) →
        clickStep s p = ⟨some p, none⟩) ∧
    (∀ (s : Selection) (p : ℚ × ℚ), s.startSel ≠ none → s.endSel = none →
        clickStep s p = ⟨s.startSel, some p⟩) ∧
    (∀ (s : Selection) (ps : List (ℚ × ℚ)), ps ≠ [] →
        selectionInv (ps.foldl clickStep s) = true) := by
  refine ⟨?_, ?_, ?_⟩
  · intro s p h
    have hc : (s.startSel.isNone || s.endSel.isSome) = true := by
      rcases h with h | h
      · simp [h]
      · simp [Option.isSome_iff_ne_none, h]
    unfold clickStep
    rw [if_pos hc]
  · intro s p h1 h2
    have hc : ¬((s.startSel.isNone || s.endSel.isSome) = true) := by
      simp [h2, Option.isNone_iff_eq_none, h1]
    unfold clickStep
    rw [if_neg hc]
  · intro s ps hne
    cases ps with
    | nil => exact absurd rfl hne
    | cons p rest => exact selectionInv_foldl rest (clickStep s p) (selectionInv_clickStep s p)

/-- Witness for C10: both click modes at concrete states, and the
invariant after a click on a state that had only an end point. -/
theorem clickStep_start_before_end_witness :
    clickStep ⟨none, none⟩ (1, 2) = ⟨some (1, 2), none⟩ ∧
    clickStep ⟨some (1, 2), none⟩ (3, 4) = ⟨some (1, 2), some (3, 4)⟩ ∧
    selectionInv ([((5 : ℚ), (6 : ℚ))].foldl clickStep ⟨none, some (1, 2)⟩) = true :=
  ⟨clickStep_start_before_end.1 ⟨none, none⟩ (1, 2) (Or.inl rfl),
   clickStep_start_before_end.2.1 ⟨some (1, 2), none⟩ (3, 4) (by simp) rfl,
   clickStep_start_before_end.2.2 ⟨none, some (1, 2)⟩ [((5 : ℚ), (6 : ℚ))] (by simp)⟩

end HeatExposure
